import Mathlib

/-!
Shallow embedding of the rp2040-hal clock-tree controller (clocks/macros.rs),
timer (timer.rs) and watchdog (watchdog.rs), together with proofs about the
configuration protocols.

Hardware registers are modelled as explicit state; every register write is
additionally recorded as an event in a trace, so ordering properties of the
switching protocols can be stated.  The `{reg}_selected` status register is
modelled as responding instantly to the latest `src` field write (a one-hot
bitmask of the selected primary-mux input); the `nb::block!` spin loops
therefore either succeed at once or spin forever.  A call that panics
(`unwrap` on an error) or spins forever is modelled as `Except.error tr`,
where `tr` lists the register writes performed before the panic/hang.
All machine integers are `Nat` with explicit `% 2 ^ 32` where register width
matters.
-/

set_option autoImplicit false

namespace RpHal

/-- A clock source as `configure_clock` sees it, combining the `ClockSource`
capability (`get_freq`) with the `ValidSrc` capability (`is_aux` and the
resolved `variant` codes): `srcCode` is the primary-mux (`SRC_A`) encoding used
when `is_aux` is false, `auxCode` the auxiliary-mux (`AUXSRC_A`) encoding used
when `is_aux` is true. -/
structure Source where
  freq : Nat
  isAux : Bool
  srcCode : Nat
  auxCode : Nat
deriving DecidableEq

/-- Per-domain state: the fields of the shared `{reg}_ctrl` register (`src`,
`auxsrc`, `enable`), the `{reg}_div` register, and the `frequency` field cached
in the clock struct itself. -/
structure ClockState where
  srcReg : Nat
  auxReg : Nat
  enabled : Bool
  divReg : Nat
  frequency : Nat
deriving DecidableEq

/-- Register-level events recorded by the embedding, one per hardware access
performed by the source code. -/
inductive Ev where
  /-- a write of `v` to the `{reg}_div` register (`set_div`) -/
  | divW (v : Nat)
  /-- a full write of `{reg}_ctrl` setting `src := v` and resetting the other
  fields (`reset_source_await` uses `.write`, not `.modify`) -/
  | ctrlWrite (v : Nat)
  /-- a read-modify-write of the `src` field of `{reg}_ctrl` -/
  | srcW (v : Nat)
  /-- a read-modify-write of the `auxsrc` field of `{reg}_ctrl` -/
  | auxW (v : Nat)
  /-- a read-modify-write of the `enable` bit of `{reg}_ctrl` -/
  | enW (b : Bool)
  /-- a successful `await_select` poll of `{reg}_selected` for bit index `nr` -/
  | confirm (nr : Nat)
  /-- a `cortex_m::asm::delay` busy wait of `cycles` cycles -/
  | delay (cycles : Nat)
deriving DecidableEq

/-- True of the divisor-register write events. -/
def Ev.isDivWrite : Ev → Bool
  | .divW _ => true
  | _ => false

/-- True of the events that write the primary source-switch mux (either the
full `ctrl` write of `reset_source_await` or a `src`-field modify). -/
def Ev.isSwitchWrite : Ev → Bool
  | .ctrlWrite _ => true
  | .srcW _ => true
  | _ => false

/-- True of the enable-bit write events. -/
def Ev.isEnableWrite : Ev → Bool
  | .enW _ => true
  | _ => false

/-- True of the auxiliary-mux write events. -/
def Ev.isAuxWrite : Ev → Bool
  | .auxW _ => true
  | _ => false

/-- Modelled from the spec: `make_div` lives in `clocks/mod.rs`, which is not
among the provided sources.  Per the spec (§4.2), the integer divisor is
`floor(source_frequency / target_frequency)`, and the computation fails when
the result does not fit the hardware's divisor-field width (here `w` bits);
a zero target frequency admits no divisor at all. -/
def make_div (w srcFreq freq : Nat) : Option Nat :=
  if freq = 0 then none
  else if srcFreq / freq < 2 ^ w then some (srcFreq / freq)
  else none

/-- Modelled from the spec: `make_frequency` lives in `clocks/mod.rs`, which is
not among the provided sources.  Per the spec (§4.3 step 6), the recorded
frequency is `source_frequency / divisor`; a zero divisor admits none. -/
def make_frequency (srcFreq d : Nat) : Option Nat :=
  if d = 0 then none else some (srcFreq / d)

namespace Glitchless

/-- Compile-time parameters of one glitchless clock instantiation of the
`clock!` macro: the `$default_src` variant value, the `$use_aux_src` variant
value, and the divisor-field width used by `make_div`. -/
structure Params where
  defaultSrc : Nat
  useAuxSrc : Nat
  divWidth : Nat
deriving DecidableEq

/-- Hardware model of the `{reg}_selected` read: a one-hot (as a u32) bitmask
of the currently selected primary-mux input, responding instantly to the last
`src` write. -/
def selected (s : ClockState) : Nat := 2 ^ s.srcReg % 2 ^ 32

/-- One `await_select` poll: `Ok` exactly when `selected == 1 << clock_nr`
(as u32 values). -/
def await_select_ok (s : ClockState) (nr : Nat) : Bool :=
  selected s == 2 ^ nr % 2 ^ 32

/-- Tail of `configure_clock` after the switch is confirmed (macros.rs lines
145-152): `set_div(div)`, then `frequency = make_frequency(src_freq, div)`
(whose `unwrap` panics on `None`), then return `true`. -/
def finish (srcFreq d : Nat) (s : ClockState) (t : List Ev) :
    Except (List Ev) (Bool × ClockState × List Ev) :=
  match make_frequency srcFreq d with
  | none => Except.error (t ++ [Ev.divW d])
  | some f => Except.ok (true, { s with divReg := d, frequency := f }, t ++ [Ev.divW d])

/-- The glitchless `configure_clock` (macros.rs lines 112-153).  Validation,
`make_div` (unwrapped), early divisor raise, then either the auxiliary-path
protocol (`reset_source_await`; `set_aux`; `set_self_aux_src`) or the direct
primary-path `set_src`, the blocking `await_select`, the final `set_div` and
the frequency cache update.  `reset_source_await` performs a full `ctrl`
register write, which also resets `auxsrc` to 0, and then blocks until bit
index 0 is selected; `get_clock_id` truncates variant values `as u8`. -/
def configure_clock (p : Params) (src : Source) (freq : Nat) (s : ClockState) :
    Except (List Ev) (Bool × ClockState × List Ev) :=
  if src.freq < freq then Except.ok (false, s, [])
  else
    match make_div p.divWidth src.freq freq with
    | none => Except.error []
    | some d =>
      let s1 := if s.divReg < d then { s with divReg := d } else s
      let t1 : List Ev := if s.divReg < d then [Ev.divW d] else []
      if src.isAux then
        let s2 : ClockState := { s1 with srcReg := p.defaultSrc, auxReg := 0 }
        let t2 := t1 ++ [Ev.ctrlWrite p.defaultSrc]
        if await_select_ok s2 0 then
          let s3 := { s2 with auxReg := src.auxCode }
          let t3 := t2 ++ [Ev.confirm 0, Ev.auxW src.auxCode]
          let s4 := { s3 with srcReg := p.useAuxSrc }
          let t4 := t3 ++ [Ev.srcW p.useAuxSrc]
          let nr := p.useAuxSrc % 256
          if await_select_ok s4 nr then
            finish src.freq d s4 (t4 ++ [Ev.confirm nr])
          else Except.error t4
        else Except.error t2
      else
        let s2 := { s1 with srcReg := src.srcCode }
        let t2 := t1 ++ [Ev.srcW src.srcCode]
        let nr := src.srcCode % 256
        if await_select_ok s2 nr then
          finish src.freq d s2 (t2 ++ [Ev.confirm nr])
        else Except.error t2

/-- The selection conditions a successful glitchless run must have passed;
they depend only on the macro parameters and the source, never on the state. -/
def awaitConds (p : Params) (src : Source) : Bool :=
  if src.isAux then
    (2 ^ p.defaultSrc % 2 ^ 32 == 2 ^ (0 : Nat) % 2 ^ 32) &&
      (2 ^ p.useAuxSrc % 2 ^ 32 == 2 ^ (p.useAuxSrc % 256) % 2 ^ 32)
  else
    2 ^ src.srcCode % 2 ^ 32 == 2 ^ (src.srcCode % 256) % 2 ^ 32

/-- Final state of a successful glitchless `configure_clock` run with computed
divisor `d` and recorded frequency `f`. -/
def finalState (p : Params) (src : Source) (s : ClockState) (d f : Nat) : ClockState :=
  { srcReg := if src.isAux then p.useAuxSrc else src.srcCode
    auxReg := if src.isAux then src.auxCode else s.auxReg
    enabled := s.enabled
    divReg := d
    frequency := f }

/-- The events of the switching phase of a successful glitchless run. -/
def switchTrace (p : Params) (src : Source) : List Ev :=
  if src.isAux then
    [Ev.ctrlWrite p.defaultSrc, Ev.confirm 0, Ev.auxW src.auxCode, Ev.srcW p.useAuxSrc,
     Ev.confirm (p.useAuxSrc % 256)]
  else
    [Ev.srcW src.srcCode, Ev.confirm (src.srcCode % 256)]

/-- The full event trace of a successful glitchless `configure_clock` run. -/
def fullTrace (p : Params) (src : Source) (s : ClockState) (d : Nat) : List Ev :=
  (if s.divReg < d then [Ev.divW d] else []) ++ switchTrace p src ++ [Ev.divW d]

end Glitchless

namespace Stoppable

/-- The stoppable `configure_clock` (macros.rs lines 253-299).  `hasDiv`
distinguishes the `divisable_clock!` instantiation (real `{reg}_div` register)
from the `div: false` arm, whose `ClockDivision` impl has `get_div` constantly
1 and `set_div` a no-op (macros.rs lines 171-174).  After validation and the
early divisor raise, the clock is disabled, a 3-cycle-per-loop settle delay of
`125_000_000 / frequency + 1` loops runs when the cached frequency is nonzero,
the aux mux is written, the clock re-enabled, the divisor applied and the
frequency cached. -/
def configure_clock (hasDiv : Bool) (divWidth : Nat) (src : Source) (freq : Nat)
    (s : ClockState) : Except (List Ev) (Bool × ClockState × List Ev) :=
  if src.freq < freq then Except.ok (false, s, [])
  else
    match make_div divWidth src.freq freq with
    | none => Except.error []
    | some d =>
      let gd := if hasDiv then s.divReg else 1
      let s1 := if gd < d then (if hasDiv then { s with divReg := d } else s) else s
      let t1 : List Ev := if gd < d then (if hasDiv then [Ev.divW d] else []) else []
      let s2 := { s1 with enabled := false }
      let t2 := t1 ++ [Ev.enW false]
      let t3 := t2 ++ (if 0 < s.frequency then [Ev.delay (125000000 / s.frequency + 1)] else [])
      let s4 := { s2 with auxReg := src.auxCode }
      let t4 := t3 ++ [Ev.auxW src.auxCode]
      let s5 := { s4 with enabled := true }
      let t5 := t4 ++ [Ev.enW true]
      let s6 := if hasDiv then { s5 with divReg := d } else s5
      let t6 := t5 ++ (if hasDiv then [Ev.divW d] else [])
      match make_frequency src.freq d with
      | none => Except.error t6
      | some f => Except.ok (true, { s6 with frequency := f }, t6)

/-- Final state of a successful stoppable `configure_clock` run with computed
divisor `d` and recorded frequency `f`: the divisor register only changes on
domains that have one. -/
def finalState (hasDiv : Bool) (src : Source) (s : ClockState) (d f : Nat) : ClockState :=
  { srcReg := s.srcReg
    auxReg := src.auxCode
    enabled := true
    divReg := if hasDiv then d else s.divReg
    frequency := f }

/-- The full event trace of a successful stoppable `configure_clock` run. -/
def fullTrace (hasDiv : Bool) (src : Source) (s : ClockState) (d : Nat) : List Ev :=
  (if (if hasDiv then s.divReg else 1) < d then (if hasDiv then [Ev.divW d] else []) else []) ++
    [Ev.enW false] ++
    (if 0 < s.frequency then [Ev.delay (125000000 / s.frequency + 1)] else []) ++
    [Ev.auxW src.auxCode, Ev.enW true] ++
    (if hasDiv then [Ev.divW d] else [])

end Stoppable

/-- The clock manager: owns the single shared register-block reference
(`shared_clocks`, modelled as an opaque identity token). -/
structure ClocksManager where
  shared_clocks : Nat
deriving DecidableEq

/-- The record type the per-clock accessor returns: the shared register-block
reference and the cached `frequency` field. -/
structure ClockHandle where
  shared_dev : Nat
  frequency : Nat
deriving DecidableEq

/-- The per-clock accessor that `base_clock!` generates on `ClocksManager`
(macros.rs lines 323-334): it constructs a record with the shared register
block and `frequency: 0.Hz()`. -/
def clock_getter (m : ClocksManager) : ClockHandle :=
  { shared_dev := m.shared_clocks, frequency := 0 }

namespace Timer

/-- The read loop of `Timer::try_now` (timer.rs lines 34-41): repeatedly read
`timerawl` then `timerawh` until the high word matches the high word read just
before the low word.  `rawh t` / `rawl t` give the register values at read
step `t` (one step per register read; the initial `timerawh` read is step 0 and
the loop is entered at step 1).  `fuel` bounds the number of iterations of the
otherwise unbounded loop; `none` models the loop still spinning. -/
def read_loop (rawh rawl : Nat → Nat) : Nat → Nat → Nat → Option (Nat × Nat)
  | 0, _, _ => none
  | fuel + 1, t, high =>
    let low := rawl t % 2 ^ 32
    let next_high := rawh (t + 1) % 2 ^ 32
    if high = next_high then some ((high <<< 32) ||| low, t)
    else read_loop rawh rawl fuel (t + 2) next_high

/-- `Timer::try_now` (timer.rs lines 27-43): the initial `timerawh` read
followed by the loop; every value the body can return is wrapped in `Ok`.  The
result pairs the 64-bit instant with the step index of the `timerawl` read
that supplied its lower half. -/
def try_now (rawh rawl : Nat → Nat) (fuel : Nat) : Option (Except Unit (Nat × Nat)) :=
  (read_loop rawh rawl fuel 1 (rawh 0 % 2 ^ 32)).map Except.ok

end Timer

namespace Watchdog

/-- Register-level events of the watchdog embedding. -/
inductive WdEv where
  /-- a `ctrl` write setting the enable bit to `b` (`Watchdog::enable`) -/
  | ctrlEnable (b : Bool)
  /-- a write of `v` to the `load` register (`Watchdog::load_counter`) -/
  | loadW (v : Nat)
deriving DecidableEq

/-- The `delay_ms` field of the `Watchdog` struct. -/
structure State where
  delay_ms : Nat
deriving DecidableEq

/-- `Watchdog::new`: `delay_ms` starts at 0. -/
def new : State := ⟨0⟩

/-- `WatchdogEnable::start` (watchdog.rs lines 74-88): `delay_ms` is set to
twice the microsecond period (u32 arithmetic, hence `% 2 ^ 32` — the RP2040-E1
compensation), the call panics when that value exceeds `MAX_PERIOD = 0xFFFFFF`
(no register touched in that case, hence `Except.error []`), and otherwise
disables the watchdog, loads the counter and re-enables it. -/
def start (_w : State) (period : Nat) : Except (List WdEv) (State × List WdEv) :=
  let d := period * 2 % 2 ^ 32
  if 0xFFFFFF < d then Except.error []
  else Except.ok (⟨d⟩, [WdEv.ctrlEnable false, WdEv.loadW d, WdEv.ctrlEnable true])

/-- `Watchdog::feed` (watchdog.rs lines 66-68): reload the counter with the
stored `delay_ms`. -/
def feed (w : State) : List WdEv := [WdEv.loadW w.delay_ms]

end Watchdog

/-- True exactly when a `configure_clock` run reports a failure to its caller,
i.e. returns `false` (the function's only failure-reporting channel — its
return type is `bool`). -/
def reportsFailure : Except (List Ev) (Bool × ClockState × List Ev) → Bool
  | .ok (false, _, _) => true
  | _ => false

/-! Helper lemmas about the spec-modelled arithmetic and the protocol runs. -/

theorem make_div_eq_some {w a b d : Nat} (h : make_div w a b = some d) :
    b ≠ 0 ∧ a / b < 2 ^ w ∧ d = a / b := by
  unfold make_div at h
  split at h
  · exact absurd h (by simp)
  · split at h
    · refine ⟨by assumption, by assumption, ?_⟩
      injection h with h2
      exact h2.symm
    · exact absurd h (by simp)

theorem make_div_eq_some_of {w a b : Nat} (hb : b ≠ 0) (hw : a / b < 2 ^ w) :
    make_div w a b = some (a / b) := by
  unfold make_div
  simp [hb, hw]

theorem make_frequency_eq_some {a d : Nat} (h : d ≠ 0) :
    make_frequency a d = some (a / d) := by
  unfold make_frequency
  simp [h]

theorem div_ne_zero_of_le {a b : Nat} (hb : b ≠ 0) (h : b ≤ a) : a / b ≠ 0 := by
  have h1 : 1 ≤ a / b := (Nat.one_le_div_iff (Nat.pos_of_ne_zero hb)).mpr h
  omega

theorem glitchless_finish_ok {srcFreq d : Nat} {s s' : ClockState} {t tr : List Ev}
    (h : Glitchless.finish srcFreq d s t = Except.ok (true, s', tr)) :
    d ≠ 0 ∧ s' = { s with divReg := d, frequency := srcFreq / d } ∧ tr = t ++ [Ev.divW d] := by
  unfold Glitchless.finish at h
  split at h
  · exact absurd h (by simp)
  · next f heq =>
    have hf := heq
    unfold make_frequency at hf
    split at hf
    · exact absurd hf (by simp)
    · next hd =>
      injection hf with hf
      refine ⟨hd, ?_, ?_⟩
      · injection h with h
        injection h with _ h
        injection h with h _
        rw [← h, hf]
      · injection h with h
        injection h with _ h
        injection h with _ h
        exact h.symm

theorem glitchless_ok_elim {p : Glitchless.Params} {src : Source} {freq : Nat}
    {s s' : ClockState} {tr : List Ev}
    (h : Glitchless.configure_clock p src freq s = Except.ok (true, s', tr)) :
    freq ≤ src.freq ∧ freq ≠ 0 ∧ src.freq / freq < 2 ^ p.divWidth ∧
      Glitchless.awaitConds p src = true ∧
      s' = Glitchless.finalState p src s (src.freq / freq) (src.freq / (src.freq / freq)) ∧
      tr = Glitchless.fullTrace p src s (src.freq / freq) := by
  unfold Glitchless.configure_clock at h
  split at h
  · exact absurd h (by simp)
  next hnlt =>
    split at h
    · exact absurd h (by simp)
    next d hd =>
      obtain ⟨hb, hw, hdval⟩ := make_div_eq_some hd
      subst hdval
      have hfle : freq ≤ src.freq := Nat.le_of_not_lt hnlt
      refine ⟨hfle, hb, hw, ?_⟩
      dsimp only at h
      repeat' split at h
      all_goals try exact Except.noConfusion h
      all_goals obtain ⟨hdne, hs', htr⟩ := glitchless_finish_ok h
      all_goals subst hs' htr
      all_goals
        simp_all [Glitchless.awaitConds, Glitchless.await_select_ok, Glitchless.selected,
          Glitchless.finalState, Glitchless.fullTrace, Glitchless.switchTrace]

theorem glitchless_ok_intro (p : Glitchless.Params) (src : Source) (freq : Nat) (s : ClockState)
    (h1 : freq ≤ src.freq) (h2 : freq ≠ 0) (h3 : src.freq / freq < 2 ^ p.divWidth)
    (h4 : Glitchless.awaitConds p src = true) :
    Glitchless.configure_clock p src freq s =
      Except.ok (true,
        Glitchless.finalState p src s (src.freq / freq) (src.freq / (src.freq / freq)),
        Glitchless.fullTrace p src s (src.freq / freq)) := by
  have hnlt : ¬ src.freq < freq := Nat.not_lt.mpr h1
  have hdiv := make_div_eq_some_of (w := p.divWidth) h2 h3
  have hdne : src.freq / freq ≠ 0 := div_ne_zero_of_le h2 h1
  have hfreq := make_frequency_eq_some (a := src.freq) hdne
  unfold Glitchless.awaitConds at h4
  cases hA : src.isAux <;> simp [hA] at h4
  · by_cases hdc : s.divReg < src.freq / freq <;>
      simp [Glitchless.configure_clock, Glitchless.finish, Glitchless.await_select_ok,
        Glitchless.selected, hnlt, hdiv, hfreq, hA, hdc, h4,
        Glitchless.finalState, Glitchless.fullTrace, Glitchless.switchTrace]
  · obtain ⟨h4a, h4b⟩ := h4
    by_cases hdc : s.divReg < src.freq / freq <;>
      simp [Glitchless.configure_clock, Glitchless.finish, Glitchless.await_select_ok,
        Glitchless.selected, hnlt, hdiv, hfreq, hA, hdc, h4a, h4b,
        Glitchless.finalState, Glitchless.fullTrace, Glitchless.switchTrace]

theorem stoppable_ok_elim {hasDiv : Bool} {w : Nat} {src : Source} {freq : Nat}
    {s s' : ClockState} {tr : List Ev}
    (h : Stoppable.configure_clock hasDiv w src freq s = Except.ok (true, s', tr)) :
    freq ≤ src.freq ∧ freq ≠ 0 ∧ src.freq / freq < 2 ^ w ∧
      s' = Stoppable.finalState hasDiv src s (src.freq / freq) (src.freq / (src.freq / freq)) ∧
      tr = Stoppable.fullTrace hasDiv src s (src.freq / freq) := by
  unfold Stoppable.configure_clock at h
  split at h
  · exact absurd h (by simp)
  next hnlt =>
    split at h
    · exact absurd h (by simp)
    next d hd =>
      obtain ⟨hb, hw2, hdval⟩ := make_div_eq_some hd
      subst hdval
      have hfle : freq ≤ src.freq := Nat.le_of_not_lt hnlt
      have hdne : src.freq / freq ≠ 0 := div_ne_zero_of_le hb hfle
      refine ⟨hfle, hb, hw2, ?_⟩
      dsimp only at h
      repeat' split at h
      all_goals try exact Except.noConfusion h
      all_goals
        simp_all [make_frequency, Stoppable.finalState, Stoppable.fullTrace]

theorem stoppable_ok_intro (hasDiv : Bool) (w : Nat) (src : Source) (freq : Nat) (s : ClockState)
    (h1 : freq ≤ src.freq) (h2 : freq ≠ 0) (h3 : src.freq / freq < 2 ^ w) :
    Stoppable.configure_clock hasDiv w src freq s =
      Except.ok (true,
        Stoppable.finalState hasDiv src s (src.freq / freq) (src.freq / (src.freq / freq)),
        Stoppable.fullTrace hasDiv src s (src.freq / freq)) := by
  have hnlt : ¬ src.freq < freq := Nat.not_lt.mpr h1
  have hdiv := make_div_eq_some_of (w := w) h2 h3
  have hdne : src.freq / freq ≠ 0 := div_ne_zero_of_le h2 h1
  have hfreq := make_frequency_eq_some (a := src.freq) hdne
  cases hasDiv
  · by_cases hdc : 1 < src.freq / freq <;> by_cases hfq : 0 < s.frequency <;>
      simp [Stoppable.configure_clock, hnlt, hdiv, hfreq, hfq, hdc,
        Stoppable.finalState, Stoppable.fullTrace]
  · by_cases hdc : s.divReg < src.freq / freq <;> by_cases hfq : 0 < s.frequency <;>
      simp [Stoppable.configure_clock, hnlt, hdiv, hfreq, hfq, hdc,
        Stoppable.finalState, Stoppable.fullTrace]

/-! The claims. -/

/-- C1 counterexample: on a stoppable domain without hardware division (the
`div: false` arm, whose `get_div` is constantly 1 and whose `set_div` is a
no-op), `configure_clock` with a 12 MHz source and a 3 MHz target succeeds and
caches 3 MHz, but afterwards the domain's divisor is 1, not
`floor(12 MHz / 3 MHz) = 4`, and the cached frequency is not
`source_frequency / divisor` (which would be 12 MHz): the claim fails for such
domains. -/
theorem c1_fixed_divisor_counterexample :
    Stoppable.configure_clock false 32 ⟨12000000, true, 0, 5⟩ 3000000 ⟨0, 0, false, 1, 0⟩ =
        Except.ok (true, ⟨0, 5, true, 1, 3000000⟩,
          [Ev.enW false, Ev.auxW 5, Ev.enW true]) ∧
      (1 : Nat) ≠ 12000000 / 3000000 ∧ (3000000 : Nat) ≠ 12000000 / 1 :=
  ⟨rfl, by decide, by decide⟩

/-- C1 (amended): whenever `configure_clock` succeeds, the computed divisor is
`floor(source_frequency / target_frequency)`, it is at least 1, and the cached
frequency equals `source_frequency / divisor` (in particular 12 MHz source and
3 MHz target give divisor 4 and cached frequency 3 MHz).  On glitchless
domains (always divisible) and on stoppable domains with hardware division the
divisor register afterwards holds that computed divisor; on `div: false`
domains the divisor register is untouched and the domain keeps reporting
divisor 1, while the cached frequency still equals
`source_frequency / floor(source_frequency / target_frequency)`. -/
theorem c1_configure_divisor_correct :
    (∀ (p : Glitchless.Params) (src : Source) (freq : Nat) (s s' : ClockState) (tr : List Ev),
      Glitchless.configure_clock p src freq s = Except.ok (true, s', tr) →
        s'.divReg = src.freq / freq ∧ 1 ≤ s'.divReg ∧
          s'.frequency = src.freq / s'.divReg) ∧
    (∀ (hasDiv : Bool) (w : Nat) (src : Source) (freq : Nat) (s s' : ClockState) (tr : List Ev),
      Stoppable.configure_clock hasDiv w src freq s = Except.ok (true, s', tr) →
        (hasDiv = true → s'.divReg = src.freq / freq) ∧ 1 ≤ src.freq / freq ∧
          s'.frequency = src.freq / (src.freq / freq)) := by
  constructor
  · intro p src freq s s' tr h
    obtain ⟨h1, h2, h3, h4, hs', htr⟩ := glitchless_ok_elim h
    subst hs'
    have hone : 1 ≤ src.freq / freq := (Nat.one_le_div_iff (Nat.pos_of_ne_zero h2)).mpr h1
    exact ⟨rfl, hone, rfl⟩
  · intro hasDiv w src freq s s' tr h
    obtain ⟨h1, h2, h3, hs', htr⟩ := stoppable_ok_elim h
    subst hs'
    have hone : 1 ≤ src.freq / freq := (Nat.one_le_div_iff (Nat.pos_of_ne_zero h2)).mpr h1
    refine ⟨?_, hone, rfl⟩
    intro hhd
    subst hhd
    rfl

/-- C1 witness: the spec scenario on a divisible glitchless domain (12 MHz
source, 3 MHz target: divisor 4, cached 3 MHz, success) and a divisible
stoppable domain (48 MHz source, 12 MHz target: divisor 4, cached 12 MHz). -/
theorem c1_configure_divisor_correct_witness :
    (Glitchless.configure_clock ⟨0, 1, 32⟩ ⟨12000000, false, 3, 0⟩ 3000000 ⟨0, 0, false, 1, 0⟩ =
        Except.ok (true, ⟨3, 0, false, 4, 3000000⟩,
          [Ev.divW 4, Ev.srcW 3, Ev.confirm 3, Ev.divW 4]) ∧
      (⟨3, 0, false, 4, 3000000⟩ : ClockState).divReg = 12000000 / 3000000 ∧
        1 ≤ (⟨3, 0, false, 4, 3000000⟩ : ClockState).divReg ∧
        (⟨3, 0, false, 4, 3000000⟩ : ClockState).frequency =
          12000000 / (⟨3, 0, false, 4, 3000000⟩ : ClockState).divReg) ∧
    (Stoppable.configure_clock true 32 ⟨48000000, true, 0, 2⟩ 12000000 ⟨0, 0, false, 1, 46875⟩ =
        Except.ok (true, ⟨0, 2, true, 4, 12000000⟩,
          [Ev.divW 4, Ev.enW false, Ev.delay 2667, Ev.auxW 2, Ev.enW true, Ev.divW 4]) ∧
      (true = true → (⟨0, 2, true, 4, 12000000⟩ : ClockState).divReg = 48000000 / 12000000) ∧
        1 ≤ 48000000 / 12000000 ∧
        (⟨0, 2, true, 4, 12000000⟩ : ClockState).frequency =
          48000000 / (48000000 / 12000000)) :=
  ⟨⟨rfl, c1_configure_divisor_correct.1 ⟨0, 1, 32⟩ ⟨12000000, false, 3, 0⟩ 3000000
      ⟨0, 0, false, 1, 0⟩ ⟨3, 0, false, 4, 3000000⟩
      [Ev.divW 4, Ev.srcW 3, Ev.confirm 3, Ev.divW 4] rfl⟩,
   ⟨rfl, c1_configure_divisor_correct.2 true 32 ⟨48000000, true, 0, 2⟩ 12000000
      ⟨0, 0, false, 1, 46875⟩ ⟨0, 2, true, 4, 12000000⟩
      [Ev.divW 4, Ev.enW false, Ev.delay 2667, Ev.auxW 2, Ev.enW true, Ev.divW 4] rfl⟩⟩

/-- C2 (confirmed): for every domain of either kind, when the target frequency
strictly exceeds the source frequency, `configure_clock` returns `false`,
leaves the whole domain state (cached frequency, divisor register, mux fields)
unchanged, and performs no register write (empty event trace). -/
theorem c2_too_high_fails :
    (∀ (p : Glitchless.Params) (src : Source) (freq : Nat) (s : ClockState),
      src.freq < freq →
        Glitchless.configure_clock p src freq s = Except.ok (false, s, [])) ∧
    (∀ (hasDiv : Bool) (w : Nat) (src : Source) (freq : Nat) (s : ClockState),
      src.freq < freq →
        Stoppable.configure_clock hasDiv w src freq s = Except.ok (false, s, [])) := by
  constructor
  · intro p src freq s hlt
    simp [Glitchless.configure_clock, hlt]
  · intro hasDiv w src freq s hlt
    simp [Stoppable.configure_clock, hlt]

/-- C2 witness: the spec scenario, a 10 MHz source with a 12 MHz target, on a
glitchless and on a stoppable domain whose cached frequency is 0. -/
theorem c2_too_high_fails_witness :
    ((10000000 : Nat) < 12000000 ∧
      Glitchless.configure_clock ⟨0, 1, 32⟩ ⟨10000000, false, 3, 0⟩ 12000000 ⟨0, 0, false, 1, 0⟩ =
        Except.ok (false, ⟨0, 0, false, 1, 0⟩, [])) ∧
    ((10000000 : Nat) < 12000000 ∧
      Stoppable.configure_clock true 32 ⟨10000000, true, 0, 5⟩ 12000000 ⟨0, 0, false, 1, 0⟩ =
        Except.ok (false, ⟨0, 0, false, 1, 0⟩, [])) :=
  ⟨⟨by decide, c2_too_high_fails.1 _ _ _ _ (by decide)⟩,
   ⟨by decide, c2_too_high_fails.2 _ _ _ _ _ (by decide)⟩⟩

/-- C7 counterexample: with a 2^30 Hz source, a 1 Hz target and a 24-bit
divisor field, the computed divisor 2^30 does not fit the field, and the call
does not report a failure to its caller: instead of returning `false` it
panics on the `unwrap` of `make_div` (modelled as `Except.error []`). -/
theorem c7_reported_failure_counterexample :
    make_div 24 1073741824 1 = none ∧
      Glitchless.configure_clock ⟨0, 1, 24⟩ ⟨1073741824, false, 3, 0⟩ 1 ⟨0, 0, false, 1, 0⟩ =
        Except.error [] ∧
      reportsFailure
          (Glitchless.configure_clock ⟨0, 1, 24⟩ ⟨1073741824, false, 3, 0⟩ 1
            ⟨0, 0, false, 1, 0⟩) =
        false :=
  ⟨rfl, rfl, rfl⟩

/-- C7 (amended): when the computed divisor does not fit the divisor-field
width (`make_div` fails), `configure_clock` of either kind panics on the
`unwrap` instead of reporting a failure return; the panic happens before any
register write (the error trace is empty), so the prior configuration is left
intact. -/
theorem c7_divisor_overflow_panics :
    (∀ (p : Glitchless.Params) (src : Source) (freq : Nat) (s : ClockState),
      freq ≤ src.freq → make_div p.divWidth src.freq freq = none →
        Glitchless.configure_clock p src freq s = Except.error []) ∧
    (∀ (hasDiv : Bool) (w : Nat) (src : Source) (freq : Nat) (s : ClockState),
      freq ≤ src.freq → make_div w src.freq freq = none →
        Stoppable.configure_clock hasDiv w src freq s = Except.error []) := by
  constructor
  · intro p src freq s hle hnone
    simp [Glitchless.configure_clock, Nat.not_lt.mpr hle, hnone]
  · intro hasDiv w src freq s hle hnone
    simp [Stoppable.configure_clock, Nat.not_lt.mpr hle, hnone]

/-- C7 witness: the 2^30 Hz source with 1 Hz target and 24-bit field, on a
glitchless and on a `div: false` stoppable domain. -/
theorem c7_divisor_overflow_panics_witness :
    ((1 : Nat) ≤ 1073741824 ∧ make_div 24 1073741824 1 = none ∧
      Glitchless.configure_clock ⟨0, 1, 24⟩ ⟨1073741824, true, 0, 5⟩ 1 ⟨0, 0, false, 1, 0⟩ =
        Except.error []) ∧
    ((1 : Nat) ≤ 1073741824 ∧ make_div 24 1073741824 1 = none ∧
      Stoppable.configure_clock false 24 ⟨1073741824, true, 0, 5⟩ 1 ⟨0, 0, false, 1, 0⟩ =
        Except.error []) :=
  ⟨⟨by decide, rfl, c7_divisor_overflow_panics.1 _ _ _ _ (by decide) rfl⟩,
   ⟨by decide, rfl, c7_divisor_overflow_panics.2 _ _ _ _ _ (by decide) rfl⟩⟩

/-- C8 (confirmed): if `configure_clock` succeeds, a second call with the
identical source and target frequency succeeds as well and ends in exactly the
same final state — same cached frequency, same divisor register, same mux
fields — so repeating a configuration is safe. -/
theorem c8_configure_idempotent :
    (∀ (p : Glitchless.Params) (src : Source) (freq : Nat) (s s' : ClockState) (tr : List Ev),
      Glitchless.configure_clock p src freq s = Except.ok (true, s', tr) →
        ∃ tr2, Glitchless.configure_clock p src freq s' = Except.ok (true, s', tr2)) ∧
    (∀ (hasDiv : Bool) (w : Nat) (src : Source) (freq : Nat) (s s' : ClockState) (tr : List Ev),
      Stoppable.configure_clock hasDiv w src freq s = Except.ok (true, s', tr) →
        ∃ tr2, Stoppable.configure_clock hasDiv w src freq s' = Except.ok (true, s', tr2)) := by
  constructor
  · intro p src freq s s' tr h
    obtain ⟨h1, h2, h3, h4, hs', htr⟩ := glitchless_ok_elim h
    have hfix : Glitchless.finalState p src
        (Glitchless.finalState p src s (src.freq / freq) (src.freq / (src.freq / freq)))
        (src.freq / freq) (src.freq / (src.freq / freq)) =
        Glitchless.finalState p src s (src.freq / freq) (src.freq / (src.freq / freq)) := by
      cases hA : src.isAux <;> simp [Glitchless.finalState, hA]
    subst hs'
    exact ⟨_, by rw [glitchless_ok_intro p src freq _ h1 h2 h3 h4, hfix]⟩
  · intro hasDiv w src freq s s' tr h
    obtain ⟨h1, h2, h3, hs', htr⟩ := stoppable_ok_elim h
    have hfix : Stoppable.finalState hasDiv src
        (Stoppable.finalState hasDiv src s (src.freq / freq) (src.freq / (src.freq / freq)))
        (src.freq / freq) (src.freq / (src.freq / freq)) =
        Stoppable.finalState hasDiv src s (src.freq / freq) (src.freq / (src.freq / freq)) := by
      cases hasDiv <;> simp [Stoppable.finalState]
    subst hs'
    exact ⟨_, by rw [stoppable_ok_intro hasDiv w src freq _ h1 h2 h3, hfix]⟩

/-- C8 witness: repeating the 12 MHz / 3 MHz glitchless configuration from its
own final state, and the 48 MHz / 12 MHz stoppable configuration likewise. -/
theorem c8_configure_idempotent_witness :
    (Glitchless.configure_clock ⟨0, 1, 32⟩ ⟨12000000, false, 3, 0⟩ 3000000 ⟨0, 0, false, 1, 0⟩ =
        Except.ok (true, ⟨3, 0, false, 4, 3000000⟩,
          [Ev.divW 4, Ev.srcW 3, Ev.confirm 3, Ev.divW 4]) ∧
      ∃ tr2,
        Glitchless.configure_clock ⟨0, 1, 32⟩ ⟨12000000, false, 3, 0⟩ 3000000
            ⟨3, 0, false, 4, 3000000⟩ =
          Except.ok (true, ⟨3, 0, false, 4, 3000000⟩, tr2)) ∧
    (Stoppable.configure_clock true 32 ⟨48000000, true, 0, 2⟩ 12000000 ⟨0, 0, false, 1, 46875⟩ =
        Except.ok (true, ⟨0, 2, true, 4, 12000000⟩,
          [Ev.divW 4, Ev.enW false, Ev.delay 2667, Ev.auxW 2, Ev.enW true, Ev.divW 4]) ∧
      ∃ tr2,
        Stoppable.configure_clock true 32 ⟨48000000, true, 0, 2⟩ 12000000
            ⟨0, 2, true, 4, 12000000⟩ =
          Except.ok (true, ⟨0, 2, true, 4, 12000000⟩, tr2)) :=
  ⟨⟨rfl, c8_configure_idempotent.1 ⟨0, 1, 32⟩ ⟨12000000, false, 3, 0⟩ 3000000
      ⟨0, 0, false, 1, 0⟩ ⟨3, 0, false, 4, 3000000⟩
      [Ev.divW 4, Ev.srcW 3, Ev.confirm 3, Ev.divW 4] rfl⟩,
   ⟨rfl, c8_configure_idempotent.2 true 32 ⟨48000000, true, 0, 2⟩ 12000000
      ⟨0, 0, false, 1, 46875⟩ ⟨0, 2, true, 4, 12000000⟩
      [Ev.divW 4, Ev.enW false, Ev.delay 2667, Ev.auxW 2, Ev.enW true, Ev.divW 4] rfl⟩⟩

/-- C3 (confirmed): in a successful glitchless `configure_clock`, if the newly
computed divisor strictly exceeds the divisor currently in the register, the
divisor register is written first — before the source-switch register writes,
which follow later in the trace; if the new divisor is strictly smaller, every
divisor-register write occurs only after the switch-completion confirmation,
which itself follows all switch writes. -/
theorem c3_divisor_ordering :
    ∀ (p : Glitchless.Params) (src : Source) (freq : Nat) (s s' : ClockState) (tr : List Ev),
      Glitchless.configure_clock p src freq s = Except.ok (true, s', tr) →
      (s.divReg < src.freq / freq →
        ∃ rest, tr = Ev.divW (src.freq / freq) :: rest ∧ rest.any Ev.isSwitchWrite = true) ∧
      (src.freq / freq < s.divReg →
        ∃ pre nr, tr = pre ++ [Ev.confirm nr, Ev.divW (src.freq / freq)] ∧
          pre.all (fun e => !e.isDivWrite) = true) := by
  intro p src freq s s' tr h
  obtain ⟨h1, h2, h3, h4, hs', htr⟩ := glitchless_ok_elim h
  subst htr
  constructor
  · intro hdc
    refine ⟨Glitchless.switchTrace p src ++ [Ev.divW (src.freq / freq)], ?_, ?_⟩
    · simp [Glitchless.fullTrace, hdc]
    · cases hA : src.isAux <;> simp [Glitchless.switchTrace, hA, Ev.isSwitchWrite]
  · intro hdc
    have hn : ¬ s.divReg < src.freq / freq := by omega
    cases hA : src.isAux
    · refine ⟨[Ev.srcW src.srcCode], src.srcCode % 256, ?_, ?_⟩
      · simp [Glitchless.fullTrace, Glitchless.switchTrace, hn, hA]
      · simp [Ev.isDivWrite]
    · refine ⟨[Ev.ctrlWrite p.defaultSrc, Ev.confirm 0, Ev.auxW src.auxCode,
        Ev.srcW p.useAuxSrc], p.useAuxSrc % 256, ?_, ?_⟩
      · simp [Glitchless.fullTrace, Glitchless.switchTrace, hn, hA]
      · simp [Ev.isDivWrite]

/-- C3 witness: the increasing-divisor and decreasing-divisor cases at
concrete inputs (12 MHz source, 3 MHz target, register divisor 1 resp. 9). -/
theorem c3_divisor_ordering_witness :
    (Glitchless.configure_clock ⟨0, 1, 32⟩ ⟨12000000, false, 3, 0⟩ 3000000 ⟨0, 0, false, 1, 0⟩ =
        Except.ok (true, ⟨3, 0, false, 4, 3000000⟩,
          [Ev.divW 4, Ev.srcW 3, Ev.confirm 3, Ev.divW 4]) ∧
      ((1 : Nat) < 12000000 / 3000000 →
        ∃ rest, [Ev.divW 4, Ev.srcW 3, Ev.confirm 3, Ev.divW 4] =
            Ev.divW (12000000 / 3000000) :: rest ∧ rest.any Ev.isSwitchWrite = true) ∧
      (12000000 / 3000000 < (1 : Nat) →
        ∃ pre nr, [Ev.divW 4, Ev.srcW 3, Ev.confirm 3, Ev.divW 4] =
            pre ++ [Ev.confirm nr, Ev.divW (12000000 / 3000000)] ∧
          pre.all (fun e => !e.isDivWrite) = true)) ∧
    (Glitchless.configure_clock ⟨0, 1, 32⟩ ⟨12000000, false, 3, 0⟩ 3000000 ⟨0, 0, false, 9, 0⟩ =
        Except.ok (true, ⟨3, 0, false, 4, 3000000⟩,
          [Ev.srcW 3, Ev.confirm 3, Ev.divW 4]) ∧
      ((9 : Nat) < 12000000 / 3000000 →
        ∃ rest, [Ev.srcW 3, Ev.confirm 3, Ev.divW 4] =
            Ev.divW (12000000 / 3000000) :: rest ∧ rest.any Ev.isSwitchWrite = true) ∧
      (12000000 / 3000000 < (9 : Nat) →
        ∃ pre nr, [Ev.srcW 3, Ev.confirm 3, Ev.divW 4] =
            pre ++ [Ev.confirm nr, Ev.divW (12000000 / 3000000)] ∧
          pre.all (fun e => !e.isDivWrite) = true)) :=
  ⟨⟨rfl, c3_divisor_ordering ⟨0, 1, 32⟩ ⟨12000000, false, 3, 0⟩ 3000000 ⟨0, 0, false, 1, 0⟩
      ⟨3, 0, false, 4, 3000000⟩ [Ev.divW 4, Ev.srcW 3, Ev.confirm 3, Ev.divW 4] rfl⟩,
   ⟨rfl, c3_divisor_ordering ⟨0, 1, 32⟩ ⟨12000000, false, 3, 0⟩ 3000000 ⟨0, 0, false, 9, 0⟩
      ⟨3, 0, false, 4, 3000000⟩ [Ev.srcW 3, Ev.confirm 3, Ev.divW 4] rfl⟩⟩

/-- C4 (confirmed): in a successful glitchless `configure_clock` whose source
travels the auxiliary path, the trace — after at most one leading divisor
write — is exactly: force the primary mux back to the default source (a full
`ctrl` write), confirm selection of source index 0, write the auxiliary-mux
field to the new code, switch the primary mux to its auxiliary input, confirm
that selection, and only then the final divisor write. -/
theorem c4_aux_switch_order :
    ∀ (p : Glitchless.Params) (src : Source) (freq : Nat) (s s' : ClockState) (tr : List Ev),
      Glitchless.configure_clock p src freq s = Except.ok (true, s', tr) → src.isAux = true →
      ∃ pre, (pre = [] ∨ pre = [Ev.divW (src.freq / freq)]) ∧
        tr = pre ++ [Ev.ctrlWrite p.defaultSrc, Ev.confirm 0, Ev.auxW src.auxCode,
          Ev.srcW p.useAuxSrc, Ev.confirm (p.useAuxSrc % 256), Ev.divW (src.freq / freq)] := by
  intro p src freq s s' tr h hA
  obtain ⟨h1, h2, h3, h4, hs', htr⟩ := glitchless_ok_elim h
  subst htr
  by_cases hdc : s.divReg < src.freq / freq
  · exact ⟨[Ev.divW (src.freq / freq)], Or.inr rfl,
      by simp [Glitchless.fullTrace, Glitchless.switchTrace, hA, hdc]⟩
  · exact ⟨[], Or.inl rfl,
      by simp [Glitchless.fullTrace, Glitchless.switchTrace, hA, hdc]⟩

/-- C4 witness: an aux-path run (12 MHz aux source, 3 MHz target) with default
source 0 and aux passthrough code 1. -/
theorem c4_aux_switch_order_witness :
    Glitchless.configure_clock ⟨0, 1, 32⟩ ⟨12000000, true, 0, 5⟩ 3000000 ⟨0, 0, false, 2, 0⟩ =
        Except.ok (true, ⟨1, 5, false, 4, 3000000⟩,
          [Ev.divW 4, Ev.ctrlWrite 0, Ev.confirm 0, Ev.auxW 5, Ev.srcW 1, Ev.confirm 1,
           Ev.divW 4]) ∧
      (true : Bool) = true ∧
      ∃ pre, (pre = [] ∨ pre = [Ev.divW (12000000 / 3000000)]) ∧
        [Ev.divW 4, Ev.ctrlWrite 0, Ev.confirm 0, Ev.auxW 5, Ev.srcW 1, Ev.confirm 1,
            Ev.divW 4] =
          pre ++ [Ev.ctrlWrite 0, Ev.confirm 0, Ev.auxW 5, Ev.srcW 1, Ev.confirm (1 % 256),
            Ev.divW (12000000 / 3000000)] :=
  ⟨rfl, rfl, c4_aux_switch_order ⟨0, 1, 32⟩ ⟨12000000, true, 0, 5⟩ 3000000 ⟨0, 0, false, 2, 0⟩
    ⟨1, 5, false, 4, 3000000⟩
    [Ev.divW 4, Ev.ctrlWrite 0, Ev.confirm 0, Ev.auxW 5, Ev.srcW 1, Ev.confirm 1, Ev.divW 4]
    rfl rfl⟩

/-- C6 (confirmed): in a successful stoppable `configure_clock`, the enable
bit is written clear before the auxiliary-mux write, with no enable write in
between (so the bit is clear at the moment the aux-mux field is written), and
the enable bit is set again in the very next write after the aux-mux write;
the events before the disable and after the re-enable contain no enable or
aux-mux writes. -/
theorem c6_stoppable_enable_order :
    ∀ (hasDiv : Bool) (w : Nat) (src : Source) (freq : Nat) (s s' : ClockState) (tr : List Ev),
      Stoppable.configure_clock hasDiv w src freq s = Except.ok (true, s', tr) →
      ∃ pre dly post,
        tr = pre ++ [Ev.enW false] ++ dly ++ [Ev.auxW src.auxCode, Ev.enW true] ++ post ∧
          (∀ e ∈ pre, e.isEnableWrite = false ∧ e.isAuxWrite = false) ∧
          (∀ e ∈ dly, e.isEnableWrite = false ∧ e.isAuxWrite = false) ∧
          (∀ e ∈ post, e.isEnableWrite = false ∧ e.isAuxWrite = false) := by
  intro hasDiv w src freq s s' tr h
  obtain ⟨h1, h2, h3, hs', htr⟩ := stoppable_ok_elim h
  subst htr
  refine ⟨(if (if hasDiv then s.divReg else 1) < src.freq / freq then
      (if hasDiv then [Ev.divW (src.freq / freq)] else []) else []),
    (if 0 < s.frequency then [Ev.delay (125000000 / s.frequency + 1)] else []),
    (if hasDiv then [Ev.divW (src.freq / freq)] else []), rfl, ?_, ?_, ?_⟩
  · intro e he
    repeat' split at he
    all_goals simp_all [Ev.isEnableWrite, Ev.isAuxWrite]
  · intro e he
    repeat' split at he
    all_goals simp_all [Ev.isEnableWrite, Ev.isAuxWrite]
  · intro e he
    repeat' split at he
    all_goals simp_all [Ev.isEnableWrite, Ev.isAuxWrite]

/-- C6 witness: a stoppable run with hardware division, a previously running
domain (cached 46875 Hz, so the settle delay fires), 48 MHz source and 12 MHz
target. -/
theorem c6_stoppable_enable_order_witness :
    Stoppable.configure_clock true 32 ⟨48000000, true, 0, 2⟩ 12000000 ⟨0, 0, false, 1, 46875⟩ =
        Except.ok (true, ⟨0, 2, true, 4, 12000000⟩,
          [Ev.divW 4, Ev.enW false, Ev.delay 2667, Ev.auxW 2, Ev.enW true, Ev.divW 4]) ∧
      ∃ pre dly post,
        [Ev.divW 4, Ev.enW false, Ev.delay 2667, Ev.auxW 2, Ev.enW true, Ev.divW 4] =
            pre ++ [Ev.enW false] ++ dly ++ [Ev.auxW 2, Ev.enW true] ++ post ∧
          (∀ e ∈ pre, e.isEnableWrite = false ∧ e.isAuxWrite = false) ∧
          (∀ e ∈ dly, e.isEnableWrite = false ∧ e.isAuxWrite = false) ∧
          (∀ e ∈ post, e.isEnableWrite = false ∧ e.isAuxWrite = false) :=
  ⟨rfl, c6_stoppable_enable_order true 32 ⟨48000000, true, 0, 2⟩ 12000000
    ⟨0, 0, false, 1, 46875⟩ ⟨0, 2, true, 4, 12000000⟩
    [Ev.divW 4, Ev.enW false, Ev.delay 2667, Ev.auxW 2, Ev.enW true, Ev.divW 4] rfl⟩

/-- C5 counterexample: starting from the record a first accessor call returns
(cached frequency 0), `configure_clock` succeeds and caches 3 MHz, yet a
subsequent accessor call for the same domain again returns a record with
cached frequency 0 — a fresh unconfigured copy, not a handle preserving the
configured state. -/
theorem c5_unique_handle_counterexample :
    (clock_getter ⟨0⟩).frequency = 0 ∧
      Glitchless.configure_clock ⟨0, 1, 32⟩ ⟨12000000, false, 3, 0⟩ 3000000
          ⟨0, 0, false, 1, (clock_getter ⟨0⟩).frequency⟩ =
        Except.ok (true, ⟨3, 0, false, 4, 3000000⟩,
          [Ev.divW 4, Ev.srcW 3, Ev.confirm 3, Ev.divW 4]) ∧
      (clock_getter ⟨0⟩).frequency ≠
        (⟨3, 0, false, 4, 3000000⟩ : ClockState).frequency :=
  ⟨rfl, rfl, by decide⟩

/-- C5 (amended): every accessor call on the clock manager constructs a fresh
record with the shared register block and cached frequency 0; the records all
alias the same register block, but the manager does not hand out a unique
record per domain, and a configured nonzero frequency is never preserved by a
subsequent accessor call. -/
theorem c5_accessor_fresh :
    ∀ (m : ClocksManager) (p : Glitchless.Params) (src : Source) (freq : Nat)
      (s s' : ClockState) (tr : List Ev),
      Glitchless.configure_clock p src freq s = Except.ok (true, s', tr) →
      0 < s'.frequency →
      (clock_getter m).shared_dev = m.shared_clocks ∧ (clock_getter m).frequency = 0 ∧
        (clock_getter m).frequency ≠ s'.frequency := by
  intro m p src freq s s' tr h hpos
  refine ⟨rfl, rfl, ?_⟩
  simp only [clock_getter]
  omega

/-- C5 witness: after the 12 MHz / 3 MHz configuration caches 3 MHz, a fresh
accessor call on a manager still returns frequency 0. -/
theorem c5_accessor_fresh_witness :
    Glitchless.configure_clock ⟨0, 1, 32⟩ ⟨12000000, false, 3, 0⟩ 3000000 ⟨0, 0, false, 2, 0⟩ =
        Except.ok (true, ⟨3, 0, false, 4, 3000000⟩,
          [Ev.divW 4, Ev.srcW 3, Ev.confirm 3, Ev.divW 4]) ∧
      0 < (3000000 : Nat) ∧
      ((clock_getter ⟨7⟩).shared_dev = 7 ∧ (clock_getter ⟨7⟩).frequency = 0 ∧
        (clock_getter ⟨7⟩).frequency ≠ (⟨3, 0, false, 4, 3000000⟩ : ClockState).frequency) :=
  ⟨rfl, by decide, c5_accessor_fresh ⟨7⟩ ⟨0, 1, 32⟩ ⟨12000000, false, 3, 0⟩ 3000000
    ⟨0, 0, false, 2, 0⟩ ⟨3, 0, false, 4, 3000000⟩
    [Ev.divW 4, Ev.srcW 3, Ev.confirm 3, Ev.divW 4] rfl (by decide)⟩

theorem shift_or_div {h l : Nat} (hl : l < 2 ^ 32) : ((h <<< 32) ||| l) / 2 ^ 32 = h := by
  rw [Nat.shiftLeft_eq, Nat.mul_comm h (2 ^ 32), ← Nat.mul_add_lt_is_or hl,
    Nat.mul_add_div (Nat.two_pow_pos 32), Nat.div_eq_of_lt hl, Nat.add_zero]

theorem shift_or_mod {h l : Nat} (hl : l < 2 ^ 32) : ((h <<< 32) ||| l) % 2 ^ 32 = l := by
  rw [Nat.shiftLeft_eq, Nat.mul_comm h (2 ^ 32), ← Nat.mul_add_lt_is_or hl,
    Nat.mul_add_mod, Nat.mod_eq_of_lt hl]

theorem read_loop_untorn (rawh rawl : Nat → Nat) :
    ∀ (fuel t high v tl : Nat), high = rawh (t - 1) % 2 ^ 32 → 1 ≤ t →
      Timer.read_loop rawh rawl fuel t high = some (v, tl) →
      1 ≤ tl ∧ v / 2 ^ 32 = rawh (tl - 1) % 2 ^ 32 ∧ v / 2 ^ 32 = rawh (tl + 1) % 2 ^ 32 ∧
        v % 2 ^ 32 = rawl tl % 2 ^ 32 := by
  intro fuel
  induction fuel with
  | zero =>
    intro t high v tl hinv ht h
    exact absurd h (by simp [Timer.read_loop])
  | succ n ih =>
    intro t high v tl hinv ht h
    rw [Timer.read_loop] at h
    split at h
    next heq =>
      injection h with h
      injection h with hv htl
      subst hv
      subst htl
      have hlow : rawl t % 2 ^ 32 < 2 ^ 32 := Nat.mod_lt _ (Nat.two_pow_pos 32)
      refine ⟨ht, ?_, ?_, ?_⟩
      · rw [shift_or_div hlow, hinv]
      · rw [shift_or_div hlow, heq]
      · rw [shift_or_mod hlow]
    next heq =>
      have ht2 : t + 2 - 1 = t + 1 := by omega
      exact ih (t + 2) (rawh (t + 1) % 2 ^ 32) v tl (by rw [ht2]) (by omega) h

/-- C9 (confirmed): every value `Timer::try_now` returns is `Ok`, and the
returned 64-bit instant is never torn: its upper 32 bits are the `timerawh`
value observed equal on the reads immediately before (step `tl - 1`) and
immediately after (step `tl + 1`) the `timerawl` read (step `tl`) that
supplied the lower 32 bits. -/
theorem c9_try_now_ok_untorn :
    ∀ (rawh rawl : Nat → Nat) (fuel : Nat) (r : Except Unit (Nat × Nat)),
      Timer.try_now rawh rawl fuel = some r →
      ∃ v tl, r = Except.ok (v, tl) ∧ 1 ≤ tl ∧
        v / 2 ^ 32 = rawh (tl - 1) % 2 ^ 32 ∧ v / 2 ^ 32 = rawh (tl + 1) % 2 ^ 32 ∧
        v % 2 ^ 32 = rawl tl % 2 ^ 32 := by
  intro rawh rawl fuel r h
  unfold Timer.try_now at h
  cases hrl : Timer.read_loop rawh rawl fuel 1 (rawh 0 % 2 ^ 32) with
  | none =>
    rw [hrl] at h
    exact absurd h (by simp)
  | some q =>
    rw [hrl] at h
    obtain ⟨v, tl⟩ := q
    simp only [Option.map_some'] at h
    injection h with h
    obtain ⟨h2, h3, h4, h5⟩ :=
      read_loop_untorn rawh rawl fuel 1 (rawh 0 % 2 ^ 32) v tl rfl (by omega) hrl
    exact ⟨v, tl, h.symm, h2, h3, h4, h5⟩

/-- C9 witness: constant register values 5 (high) and 7 (low); the loop exits
on its first iteration with the untorn instant `5 <<< 32 ||| 7`. -/
theorem c9_try_now_ok_untorn_witness :
    Timer.try_now (fun _ => 5) (fun _ => 7) 1 = some (Except.ok (21474836487, 1)) ∧
      ∃ v tl, (Except.ok (21474836487, 1) : Except Unit (Nat × Nat)) = Except.ok (v, tl) ∧
        1 ≤ tl ∧ v / 2 ^ 32 = (fun _ => (5 : Nat)) (tl - 1) % 2 ^ 32 ∧
        v / 2 ^ 32 = (fun _ => (5 : Nat)) (tl + 1) % 2 ^ 32 ∧
        v % 2 ^ 32 = (fun _ => (7 : Nat)) tl % 2 ^ 32 :=
  ⟨rfl, c9_try_now_ok_untorn (fun _ => 5) (fun _ => 7) 1 (Except.ok (21474836487, 1)) rfl⟩

/-- C10 counterexample: at period 2^31 µs the mathematically doubled period,
2^32 µs, exceeds 0xFFFFFF, yet `start` does not panic: the u32 multiplication
wraps to 0, the watchdog is started with reload value 0, and the stored value
is not twice the requested period. -/
theorem c10_overflow_counterexample :
    (0xFFFFFF : Nat) < 2147483648 * 2 ∧
      Watchdog.start Watchdog.new 2147483648 =
        Except.ok (⟨0⟩, [Watchdog.WdEv.ctrlEnable false, Watchdog.WdEv.loadW 0,
          Watchdog.WdEv.ctrlEnable true]) ∧
      (0 : Nat) ≠ 2147483648 * 2 :=
  ⟨by decide, rfl, by decide⟩

/-- C10 (amended): `start(period)` stores twice the requested microsecond
period reduced modulo 2^32 (u32 arithmetic, the RP2040-E1 compensation) as the
reload value; it panics exactly when that stored value exceeds 0xFFFFFF, and
in that case before touching any register; otherwise it disables the watchdog,
loads the stored value, and re-enables it, and every subsequent `feed()`
reloads exactly that same stored value. -/
theorem c10_watchdog_start_feed :
    ∀ (w : Watchdog.State) (period : Nat),
      (0xFFFFFF < period * 2 % 2 ^ 32 → Watchdog.start w period = Except.error []) ∧
      (period * 2 % 2 ^ 32 ≤ 0xFFFFFF →
        Watchdog.start w period =
          Except.ok (⟨period * 2 % 2 ^ 32⟩,
            [Watchdog.WdEv.ctrlEnable false, Watchdog.WdEv.loadW (period * 2 % 2 ^ 32),
             Watchdog.WdEv.ctrlEnable true]) ∧
        Watchdog.feed ⟨period * 2 % 2 ^ 32⟩ =
          [Watchdog.WdEv.loadW (period * 2 % 2 ^ 32)]) := by
  intro w period
  constructor
  · intro hgt
    simp only [Watchdog.start]
    rw [if_pos hgt]
  · intro hle
    refine ⟨?_, rfl⟩
    simp only [Watchdog.start]
    rw [if_neg (Nat.not_lt.mpr hle)]

/-- C10 witness: period 9 000 000 µs doubles to 18 000 000 > 0xFFFFFF and
panics with no register write; period 1 000 000 µs doubles to 2 000 000, which
is stored, loaded between a disable and an enable, and reloaded by `feed`. -/
theorem c10_watchdog_start_feed_witness :
    ((0xFFFFFF : Nat) < 9000000 * 2 % 2 ^ 32 ∧
      Watchdog.start Watchdog.new 9000000 = Except.error []) ∧
    (1000000 * 2 % 2 ^ 32 ≤ (0xFFFFFF : Nat) ∧
      (Watchdog.start Watchdog.new 1000000 =
          Except.ok (⟨2000000⟩, [Watchdog.WdEv.ctrlEnable false, Watchdog.WdEv.loadW 2000000,
            Watchdog.WdEv.ctrlEnable true]) ∧
        Watchdog.feed ⟨2000000⟩ = [Watchdog.WdEv.loadW 2000000])) :=
  ⟨⟨by decide, (c10_watchdog_start_feed Watchdog.new 9000000).1 (by decide)⟩,
   ⟨by decide, (c10_watchdog_start_feed Watchdog.new 1000000).2 (by decide)⟩⟩

end RpHal
